import Mathlib

/-!
Verification of the trace annotator of a Solidity transaction debugger
(`src/debug/sol_debugger.ts`).

The debugger consumes per-instruction VM callbacks and maintains a logical
call stack mixing external frames (calls / creations, one per VM depth level)
and internal frames (same-contract calls inferred from source-map jump
annotations).  The definitions below are a shallow embedding of that file:

* byte buffers are `List Nat` (one `Nat` per byte);
* 32-byte EVM words are byte buffers; the operand stack and the frame stack
  are Lean lists kept TOP-FIRST (element 0 is the top), so the TypeScript
  access `xs[xs.length - 1 - k]` becomes `stkGet xs k`;
* the trace is kept in chronological order (`trace.push` becomes
  `trace ++ [st]`, `trace[trace.length - 1]` becomes `trace.getLast?`);
* `async` state-manager / artifact-manager / ABI-decoder queries become
  fields of an explicit environment record `Env`;
* fallible code (`assert`, thrown exceptions) returns `Except String`.

Modules of the repository that are imported by `sol_debugger.ts` but whose
sources are not part of the two provided files (the opcode table
`./opcodes`, the artifact manager, the ABI decoder, `solc-typed-ast`
helpers, buffer utilities) are modelled from the specification; each such
definition carries a doc comment starting with `Modelled from the spec:`.
-/

namespace SolDbg

/-- A byte buffer (`Buffer` in the source): a list of bytes. -/
abbrev Buf := List Nat

/-- A 32-byte big-endian EVM word, as a byte buffer. -/
abbrev Word := Buf

/-- A 20-byte address, as a byte buffer (the source uses both `Address`
objects and their lower-case hex strings; hex rendering of a fixed-width
byte string is injective, so the byte list stands for both). -/
abbrev Addr := Buf

/-- Modelled from the spec: the zero address is 20 zero bytes. -/
def ZERO_ADDRESS : Addr := List.replicate 20 0

/-- Modelled from the spec: `bigEndianBufToNumber` interprets a byte buffer
as a big-endian unsigned integer. -/
def bigEndianBufToNumber (buf : Buf) : Nat :=
  buf.foldl (fun acc b => acc * 256 + b) 0

/-- Modelled from the spec: `wordToAddress` keeps the rightmost 20 bytes of
a word. -/
def wordToAddress (w : Word) : Addr := w.drop (w.length - 20)

/-- Modelled from the spec: `padStart(buf, n, fill)` left-pads `buf` with
`fill` bytes up to length `n`. -/
def padStart (buf : Buf) (n : Nat) (fill : Nat) : Buf :=
  List.replicate (n - buf.length) fill ++ buf

/-- `evmStack[evmStack.length - 1 - k]`: the entry `k` slots below the top of
an operand stack (stacks are top-first lists here).  An out-of-range read is
the empty buffer (the TypeScript would read `undefined`; no claim depends on
that pathological case). -/
def stkGet (s : List Word) (k : Nat) : Word := (s.get? k).getD []

/-- `memory.slice(off, off + size)` — `Buffer.slice` clamps to the buffer's
bounds, exactly like `drop`/`take`. -/
def memSlice (mem : Buf) (off size : Nat) : Buf := (mem.drop off).take size

/-- Hex digit for a nibble. -/
def hexDigit (n : Nat) : Char :=
  Char.ofNat (if n < 10 then 48 + n else 87 + n)

/-- `buf.toString("hex")`: lower-case hex rendering of a byte buffer. -/
def bytesToHex (buf : Buf) : String :=
  String.mk (buf.foldr (fun b acc => hexDigit (b / 16) :: hexDigit (b % 16) :: acc) [])

/-! ## Opcode table (`./opcodes`, modelled from the spec §4.1) -/

/-! The numeric opcodes the debugger compares against (`OPCODES` in the
source).  The values are the standard EVM ones; only their distinctness
matters. -/

namespace OPCODES

def CALL : Nat := 0xf1
def CALLCODE : Nat := 0xf2
def DELEGATECALL : Nat := 0xf4
def STATICCALL : Nat := 0xfa
def CREATE : Nat := 0xf0
def CREATE2 : Nat := 0xf5
def SSTORE : Nat := 0x55
def JUMP : Nat := 0x56
def JUMPDEST : Nat := 0x5b

end OPCODES

/-- Modelled from the spec: one row of the static opcode table
(`EVMOpInfo`).  `changesMemory` is carried as a table field (the spec only
says "writes to linear memory" without enumerating the set). -/
structure EVMOpInfo where
  opcode : Nat
  mnemonic : String
  changesMemory : Bool
  deriving DecidableEq, Repr

/-- Modelled from the spec: `increasesDepth` holds for CALL, CALLCODE,
DELEGATECALL, STATICCALL, CREATE and CREATE2. -/
def increasesDepth (op : EVMOpInfo) : Bool :=
  op.opcode == OPCODES.CALL || op.opcode == OPCODES.CALLCODE ||
  op.opcode == OPCODES.DELEGATECALL || op.opcode == OPCODES.STATICCALL ||
  op.opcode == OPCODES.CREATE || op.opcode == OPCODES.CREATE2

/-- Modelled from the spec: `createsContract` holds for CREATE and CREATE2. -/
def createsContract (op : EVMOpInfo) : Bool :=
  op.opcode == OPCODES.CREATE || op.opcode == OPCODES.CREATE2

/-- Modelled from the spec: `changesMemory` reads the table field. -/
def changesMemory (op : EVMOpInfo) : Bool := op.changesMemory

/-! ## Debug info: source triples, AST nodes, contract artifacts -/

/-- `DecodedBytecodeSourceMapEntry`: a decoded source triple plus the jump
annotation (`"i"` = into, `"o"` = out, `"-"` = regular). -/
structure SrcEntry where
  start : Nat
  length : Nat
  sourceIndex : Nat
  jump : String
  deriving DecidableEq, Repr

/-- Modelled from the spec: a type node of the source language; all the
debugger asks of a type is whether it occupies two stack slots as calldata
(a pointer-and-length pair, `isCalldataType2Slots`). -/
structure TypeNode where
  id : Nat
  calldata2Slots : Bool
  deriving DecidableEq, Repr

/-- Modelled from the spec: `isCalldataType2Slots` (from `./decoding`). -/
def isCalldataType2Slots (t : TypeNode) : Bool := t.calldata2Slots

/-- Modelled from the spec: the aspects of a `FunctionDefinition` AST node
the debugger uses — its canonical selector and its formal parameters as
(name, type) pairs.  `formals = none` models `variableDeclarationToTypeNode`
throwing on a parameter (missing source units). -/
structure FunctionDefinitionData where
  id : Nat
  selector : String
  formals : Option (List (String × TypeNode))
  deriving DecidableEq, Repr

/-- Modelled from the spec: the aspects of a `VariableDeclaration` AST node
the debugger uses.  `getterSelector = none` and `getterArgs = none` model
`getterCanonicalSignatureHash` resp. `getterArgsAndReturn` throwing. -/
structure VariableDeclarationData where
  id : Nat
  stateVariable : Bool
  visibilityPublic : Bool
  getterSelector : Option String
  getterArgs : Option (List TypeNode)
  deriving DecidableEq, Repr

/-- Modelled from the spec: an AST node, as far as the debugger inspects it
(`instanceof FunctionDefinition` / `instanceof VariableDeclaration`). -/
inductive ASTNode where
  | functionDefinition (d : FunctionDefinitionData)
  | variableDeclaration (d : VariableDeclarationData)
  | other (id : Nat)
  deriving DecidableEq, Repr

/-- Modelled from the spec: per-bytecode debug info; `getOffsetSrc` maps a
PC to its source triple, `none` modelling the lookup throwing (PC outside
the table). -/
structure BytecodeInfo where
  getOffsetSrc : Nat → Option SrcEntry

/-- Modelled from the spec: the contract-level AST root
(`vFunctions`, `vStateVariables`, `vConstructor`). -/
structure ContractAST where
  vFunctions : List FunctionDefinitionData
  vStateVariables : List VariableDeclarationData
  vConstructor : Option FunctionDefinitionData

/-- Modelled from the spec: the compile-time artifact — the
`"start:length:sourceIndex"`-keyed map to AST nodes and the ABI encoder
version. -/
structure Artifact where
  srcMap : String → Option ASTNode
  abiEncoderVersion : String

/-- Modelled from the spec: `ContractInfo`, as returned by the artifact
manager (opaque to the core). -/
structure ContractInfo where
  bytecode : BytecodeInfo
  deployedBytecode : BytecodeInfo
  ast : Option ContractAST
  artifact : Artifact

/-! ## Data locations and views -/

/-- `DataLocation`: where a decoded value lives.  `stack` carries
`offsetFromTop` (an `Int`, since the reconciler's accumulator starts
at -1). -/
inductive DataLocation where
  | stack (offsetFromTop : Int)
  | memory (address : Nat)
  | calldata (address : Nat)
  | storage (address : Nat) (endOffsetInWord : Nat)
  deriving DecidableEq, Repr

/-- `DataView`: a typed pointer into the VM state. -/
structure DataView where
  type : TypeNode
  originalType : Option TypeNode := none
  loc : DataLocation
  deriving DecidableEq, Repr

/-- `Array<[string, DataView | undefined]>`: the decoded arguments stored on
a frame. -/
abbrev FrameArgs := List (String × Option DataView)

/-- Widening from `decodeFunArgs`'s `Array<[string, DataView]>` to the
frame's `Array<[string, DataView | undefined]>` (a no-op subtyping step in
TypeScript). -/
def widenArgs (xs : List (String × DataView)) : FrameArgs :=
  xs.map (fun p => (p.1, some p.2))

/-! ## Frames -/

/-- `CallFrame` (kind `FrameKind.Call`). -/
structure CallFrameData where
  sender : Addr
  msgData : Buf
  receiver : Addr
  code : Buf
  info : Option ContractInfo
  callee : Option ASTNode
  address : Addr
  startStep : Nat
  arguments : Option FrameArgs

/-- `CreationFrame` (kind `FrameKind.Creation`). -/
structure CreationFrameData where
  sender : Addr
  msgData : Buf
  creationCode : Buf
  info : Option ContractInfo
  callee : Option ASTNode
  address : Addr
  startStep : Nat
  arguments : Option FrameArgs

/-- `ExternalFrame = CallFrame | CreationFrame`. -/
inductive ExternalFrame where
  | call (d : CallFrameData)
  | creation (d : CreationFrameData)

/-- `frame.address` of an external frame. -/
def ExternalFrame.address : ExternalFrame → Addr
  | .call d => d.address
  | .creation d => d.address

/-- `frame.info` of an external frame. -/
def ExternalFrame.info : ExternalFrame → Option ContractInfo
  | .call d => d.info
  | .creation d => d.info

/-- `InternalCallFrame` (kind `FrameKind.InternalCall`). -/
structure InternalCallFrame where
  nearestExtFrame : ExternalFrame
  callee : Option ASTNode
  offset : Nat
  startStep : Nat
  arguments : Option FrameArgs

/-- `Frame = ExternalFrame | InternalCallFrame`. -/
inductive Frame where
  | ext (f : ExternalFrame)
  | intern (f : InternalCallFrame)

/-- `frame.kind === FrameKind.Creation || frame.kind === FrameKind.Call`. -/
def isExternalKind : Frame → Bool
  | .ext _ => true
  | .intern _ => false

/-- The `FrameKind` enum string of a frame (used in error messages). -/
def frameKindStr : Frame → String
  | .ext (.call _) => "call"
  | .ext (.creation _) => "creation"
  | .intern _ => "internal_call"

/-- The number of external (Call + Creation) frames in a frame stack. -/
def countExt : List Frame → Nat
  | [] => 0
  | .ext _ :: rest => countExt rest + 1
  | .intern _ :: rest => countExt rest

/-- `lastExternalFrame`: the frame on top of the stack if external, else the
internal frame's back-reference; `none` on an empty stack (where the
TypeScript crashes). -/
def lastExternalFrame : List Frame → Option ExternalFrame
  | [] => none
  | .ext f :: _ => some f
  | .intern f :: _ => some f.nearestExtFrame

/-! ## VM state per step -/

/-- `Storage`: the persistent map is represented by its entries
(`ImmMap.fromEntries` keeps the list). -/
abbrev Storage := List (Nat × Buf)

/-- `EventDesc`: a LOG payload plus its topics as 256-bit unsigned
integers. -/
structure EventDesc where
  payload : Buf
  topics : List Nat
  deriving DecidableEq, Repr

/-- `StepVMState`: the normalized low-level machine state of one step. -/
structure StepVMState where
  evmStack : List Word
  memory : Buf
  storage : Storage
  op : EVMOpInfo
  pc : Nat
  gasCost : Nat
  dynamicGasCost : Nat
  gas : Nat
  depth : Nat
  address : Addr
  codeAddress : Addr

/-- `StepState`: the full per-step debugger record. -/
structure StepState extends StepVMState where
  code : Buf
  codeMdHash : Option String
  stack : List Frame
  src : Option SrcEntry
  astNode : Option ASTNode
  emittedEvent : Option EventDesc
  contractInfo : Option ContractInfo

/-- One raw `InterpreterStep` callback from the VM, with the answers of the
per-step state-manager queries folded in: `memory` is the raw VM buffer,
`storageDump` is what `stateManager.dumpStorage(step.address)` returns at
this step (key already numeric, value still RLP-encoded), `fee` /
`dynamicFee` come from `step.opcode`.  The stack words already are 32-byte
big-endian buffers (the `word.toArray("be", 32)` conversion of the
source). -/
structure RawStep where
  evmStack : List Word
  memory : Buf
  storageDump : List (Nat × Buf)
  op : EVMOpInfo
  pc : Nat
  fee : Nat
  dynamicFee : Option Nat
  gasLeft : Nat
  depth : Nat
  address : Addr
  codeAddress : Addr

/-- The environment: every external collaborator the debugger awaits —
state manager, artifact manager, ABI decoder, RLP decoder. -/
structure Env where
  getContractCode : Addr → Buf
  getCodeHash : Buf → Option String
  getCreationCodeHash : Buf → Option String
  getContractFromMDHash : String → Option ContractInfo
  getContractFromCreationBytecode : Buf → Option ContractInfo
  decodeMsgData : ASTNode → Buf → String → Option FrameArgs
  rlpDecode : Buf → Buf

/-- `getStorage`: dump the executing account's storage and decode each
entry (`padStart(rlp.decode(value), 32, 0)`). -/
def getStorage (env : Env) (raw : RawStep) : Storage :=
  raw.storageDump.map (fun e => (e.1, padStart (env.rlpDecode e.2) 32 0))

/-! ## `decodeSourceLoc` -/

/-- The `"start:length:sourceIndex"` key used for the AST lookup. -/
def srcKey (src : SrcEntry) : String :=
  toString src.start ++ ":" ++ toString src.length ++ ":" ++ toString src.sourceIndex

/-- `decodeSourceLoc(instrOffset, ctx)`: no debug info gives
`[undefined, undefined]`; with debug info the source triple comes from the
creation or the deployed source map depending on the frame kind, and the
AST node from the artifact's `srcMap`.  `getOffsetSrc` throwing (no entry
for the PC) is the `Except.error` case. -/
def decodeSourceLoc (instrOffset : Nat) (ctx : ExternalFrame) :
    Except String (Option SrcEntry × Option ASTNode) :=
  match ctx.info with
  | none => .ok (none, none)
  | some info =>
    let bytecodeInfo :=
      match ctx with
      | .creation _ => info.bytecode
      | .call _ => info.deployedBytecode
    match bytecodeInfo.getOffsetSrc instrOffset with
    | none => .error "getOffsetSrc: no source entry for PC"
    | some src => .ok (some src, info.artifact.srcMap (srcKey src))

/-! ## `decodeFunArgs` -/

/-- The formal parameters of a callee, as `decodeFunArgs` computes them:
a function's declared parameters with resolved types, or a public state
variable's synthesized getter arguments named `ARG_i`; `none` models the
`try`/`catch` returning `undefined` when type resolution throws. -/
def calleeFormals : ASTNode → Option (List (String × TypeNode))
  | .functionDefinition d => d.formals
  | .variableDeclaration d =>
      d.getterArgs.map (fun ts => ts.enum.map (fun p => ("ARG_" ++ toString p.1, p.2)))
  | .other _ => none

/-- The inner loop of `decodeFunArgs`: walk the formals from last to first
(the recursion processes the tail — the later formals, nearer the stack
top — before the head), keeping the running `offsetFromTop` that starts
at -1 and grows by the slot count of each formal; each formal's view is
`Stack(offsetFromTop)` after the increment, and the `assert` fires when the
offset passes the stack depth. -/
def decodeFunArgsGo (stackLen : Nat) :
    List (String × TypeNode) → Except String (List (String × DataView) × Int)
  | [] => .ok ([], -1)
  | (name, typ) :: rest =>
    match decodeFunArgsGo stackLen rest with
    | .error e => .error e
    | .ok (views, offsetFromTop) =>
      let stackSize : Int := if isCalldataType2Slots typ then 2 else 1
      let offsetFromTop' := offsetFromTop + stackSize
      if offsetFromTop' ≤ (stackLen : Int) then
        .ok ((name, { type := typ, loc := DataLocation.stack offsetFromTop' }) :: views,
             offsetFromTop')
      else
        .error "Stack underflow when trying to decode arguments"

/-- `decodeFunArgs(callee, stack)`: build stack `DataView`s for the callee's
formals; `ok none` models returning `undefined` (unresolvable types),
`error` models the stack-underflow `assert` firing. -/
def decodeFunArgs (callee : ASTNode) (stack : List Word) :
    Except String (Option (List (String × DataView))) :=
  match calleeFormals callee with
  | none => .ok none
  | some formals =>
    match decodeFunArgsGo stack.length formals with
    | .error e => .error e
    | .ok (res, _) => .ok (some res)

/-! ## Frame builders -/

/-- `makeCreationFrame(sender, data, step)`: resolve the contract by its
creation bytecode; the callee is the AST constructor when present;
argument decoding from the constructor tail is left undone (`TODO` in the
source), so `arguments` is `none`. -/
def makeCreationFrame (env : Env) (sender : Addr) (data : Buf) (step : Nat) :
    CreationFrameData :=
  let contractInfo := env.getContractFromCreationBytecode data
  let callee : Option ASTNode :=
    match contractInfo with
    | some ci =>
      match ci.ast with
      | some a => a.vConstructor.map ASTNode.functionDefinition
      | none => none
    | none => none
  { sender := sender
    msgData := data
    creationCode := data
    info := contractInfo
    callee := callee
    address := ZERO_ADDRESS
    startStep := step
    arguments := none }

/-- `makeCallFrame(sender, receiver, data, receiverCode, codeHash, step)`:
resolve the contract by metadata hash, match the 4-byte selector first
against the declared functions, then against the public state variables'
getters (a throwing getter hash counts as no match), and ABI-decode the
msg-data for a resolved callee (a throwing decode leaves `arguments`
undefined). -/
def makeCallFrame (env : Env) (sender : Addr) (receiver : Addr) (data : Buf)
    (receiverCode : Buf) (codeHash : Option String) (step : Nat) : CallFrameData :=
  let contractInfo :=
    match codeHash with
    | none => none
    | some h => env.getContractFromMDHash h
  let selector := bytesToHex (data.take 4)
  let calleeArgs : Option ASTNode × Option FrameArgs :=
    match contractInfo with
    | some ci =>
      match ci.ast with
      | some contract =>
        let abiVersion := ci.artifact.abiEncoderVersion
        let matchingFuns := contract.vFunctions.filter (fun f => f.selector == selector)
        let callee : Option ASTNode :=
          if matchingFuns.length == 1 then
            (matchingFuns.get? 0).map ASTNode.functionDefinition
          else
            let matchingGetters := contract.vStateVariables.filter
              (fun v => v.visibilityPublic && v.getterSelector == some selector)
            if matchingGetters.length == 1 then
              (matchingGetters.get? 0).map ASTNode.variableDeclaration
            else
              none
        match callee with
        | some c => (some c, env.decodeMsgData c data abiVersion)
        | none => (none, none)
      | none => (none, none)
    | none => (none, none)
  { sender := sender
    msgData := data
    receiver := receiver
    code := receiverCode
    info := contractInfo
    callee := calleeArgs.1
    address := receiver
    startStep := step
    arguments := calleeArgs.2 }

/-! ## The stack reconciler (`adjustStackFrame`) -/

/-- The external-return pop loop: pop frames from the top while the quota of
external frames to pop is positive and the stack is non-empty; popping an
external frame decrements the quota, popping an internal frame does not. -/
def popExternalFrames : Nat → List Frame → List Frame
  | 0, stack => stack
  | _ + 1, [] => []
  | n + 1, f :: rest =>
    popExternalFrames (if isExternalKind f then n else n + 1) rest

/-- `ast instanceof FunctionDefinition || (ast instanceof VariableDeclaration
&& ast.stateVariable)`: the callees whose arguments get decoded on internal
call entry. -/
def calleeDecodable : ASTNode → Bool
  | .functionDefinition _ => true
  | .variableDeclaration d => d.stateVariable
  | .other _ => false

/-- The argument computation on internal-call entry: `decodeFunArgs` is
consulted exactly when the resolved AST node is a FunctionDefinition or a
state-variable VariableDeclaration (otherwise `args` stays undefined); a
stack-underflow assert inside `decodeFunArgs` propagates. -/
def calleeArgsOnEntry (ast : Option ASTNode) (stk : List Word) :
    Except String (Option FrameArgs) :=
  match ast with
  | some a =>
    if calleeDecodable a then
      match decodeFunArgs a stk with
      | .error e => .error e
      | .ok o => .ok (o.map widenArgs)
    else .ok none
  | none => .ok none

/-- `adjustStackFrame(stack, state, trace, code, codeHash)`: update the
logical frame stack for one step.

* Case 1 — the external depth changed against the last recorded step:
  on an increase the previous opcode must be depth-increasing (`assert`),
  and a creation or call frame is pushed, its data read from the previous
  step's operand stack and memory; on a decrease frames are popped until
  the decrease is matched by popped external frames.
* Case 2 — same depth: with a source triple for the current PC, a
  JUMP-with-`jump: "i"` followed by JUMPDEST pushes an internal frame, and
  a JUMP whose own triple has `jump: "o"` pops one, `assert`ing that the
  top frame is internal.

An empty frame stack makes the TypeScript crash on
`lastExternalFrame`; that is the first `error` case. -/
def adjustStackFrame (env : Env) (stack : List Frame) (state : StepVMState)
    (trace : List StepState) (code : Buf) (codeHash : Option String) :
    Except String (List Frame) :=
  match lastExternalFrame stack with
  | none => .error "lastExternalFrame: empty stack"
  | some lastExtFrame =>
    -- First instruction - nothing to do
    match trace.getLast? with
    | none => .ok stack
    | some lastStep =>
      let lastOp := lastStep.op
      -- Case 1: Change in external call depth
      if lastStep.depth ≠ state.depth then
        if state.depth > lastStep.depth then
          if !increasesDepth lastOp then
            .error ("Unexpected depth increase on op " ++ lastOp.mnemonic)
          else if createsContract lastOp then
            -- Contract creation call
            let off := bigEndianBufToNumber (stkGet lastStep.evmStack 1)
            let size := bigEndianBufToNumber (stkGet lastStep.evmStack 2)
            let creationBytecode := memSlice lastStep.memory off size
            let curFrame :=
              makeCreationFrame env lastExtFrame.address creationBytecode trace.length
            .ok (Frame.ext (ExternalFrame.creation curFrame) :: stack)
          else
            -- External call
            let argStackOff :=
              if lastOp.opcode == OPCODES.CALL || lastOp.opcode == OPCODES.CALLCODE
              then 3 else 2
            let argSizeStackOff := argStackOff + 1
            let argOff := bigEndianBufToNumber (stkGet lastStep.evmStack argStackOff)
            let argSize := bigEndianBufToNumber (stkGet lastStep.evmStack argSizeStackOff)
            let receiver := wordToAddress (stkGet lastStep.evmStack 1)
            let msgData := memSlice lastStep.memory argOff argSize
            let newFrame :=
              makeCallFrame env lastExtFrame.address receiver msgData code codeHash
                trace.length
            .ok (Frame.ext (ExternalFrame.call newFrame) :: stack)
        else
          -- External return or exception
          .ok (popExternalFrames (lastStep.depth - state.depth) stack)
      else
        -- Case 2: No change in external depth
        match decodeSourceLoc state.pc lastExtFrame with
        | .error e => .error e
        | .ok (srcOpt, ast) =>
          match srcOpt with
          | none => .ok stack
          | some src =>
            -- Jumping into an internal function call
            if state.op.mnemonic == "JUMPDEST" && lastStep.op.mnemonic == "JUMP"
                && (match lastStep.src with
                    | some ps => ps.jump == "i"
                    | none => false) then
              match calleeArgsOnEntry ast state.evmStack with
              | .error e => .error e
              | .ok args =>
                let newFrame : InternalCallFrame :=
                  { nearestExtFrame := lastExtFrame
                    callee := ast
                    offset := state.pc
                    startStep := trace.length
                    arguments := args }
                .ok (Frame.intern newFrame :: stack)
            -- Returning from an internal function call
            else if state.op.mnemonic == "JUMP" && src.jump == "o" then
              match stack with
              | Frame.intern _ :: rest => .ok rest
              | topFrame :: _ =>
                .error ("Mismatched internal return from frame " ++ frameKindStr topFrame)
              | [] => .error "Mismatched internal return from frame"
            else
              .ok stack

/-! ## Code resolution (`getCodeAndMdHash`) -/

/-- `getCodeAndMdHash(vm, step, trace)`: the executing code and its
identifying hash — the initcode slice after a CREATE/CREATE2, a fresh
state-manager fetch on the first step or on a `codeAddress` change, and the
previous step's code otherwise. -/
def getCodeAndMdHash (env : Env) (step : StepVMState) (trace : List StepState) :
    Buf × Option String :=
  match trace.getLast? with
  | some lastStep =>
    if createsContract lastStep.op then
      let off := bigEndianBufToNumber (stkGet lastStep.evmStack 1)
      let size := bigEndianBufToNumber (stkGet lastStep.evmStack 2)
      let code := memSlice lastStep.memory off size
      (code, env.getCreationCodeHash code)
    else if !(lastStep.codeAddress == step.codeAddress) then
      let code := env.getContractCode step.codeAddress
      (code, env.getCodeHash code)
    else
      (lastStep.code, lastStep.codeMdHash)
  | none =>
    let code := env.getContractCode step.codeAddress
    (code, env.getCodeHash code)

/-! ## Per-step processing (`processRawTraceStep`) -/

/-- `s.startsWith(pre)`, computed on the character lists (the byte-position
loop of `String.startsWith` does not reduce in the kernel; prefix testing
on the character list is the same function). -/
def strStartsWith (s pre : String) : Bool := pre.data.isPrefixOf s.data

/-- `N = mnemonic[3] - "0"`: the topic count of a LOG-N mnemonic. -/
def logTopicCount (mnemonic : String) : Nat :=
  (mnemonic.toList.getD 3 '0').toNat - '0'.toNat

/-- `processRawTraceStep(vm, step, trace, stack)`: normalize the raw
callback (aliasing the previous step's memory unless the previous opcode
changes memory, and its storage unless the previous opcode is SSTORE),
resolve the executing code, reconcile the frame stack, decode the source
location (errors swallowed), extract a LOG event, and assemble the
`StepState` whose `stack` field snapshots the reconciled frame stack.
Returns the new step together with the updated frame stack (the TypeScript
mutates `stack` in place). -/
def processRawTraceStep (env : Env) (raw : RawStep) (trace : List StepState)
    (stack : List Frame) : Except String (StepState × List Frame) :=
  let evmStack := raw.evmStack
  let lastStep := trace.getLast?
  let memory : Buf :=
    match lastStep with
    | none => raw.memory
    | some ls => if changesMemory ls.op then raw.memory else ls.memory
  let op := raw.op
  let storage : Storage :=
    match lastStep with
    | none => getStorage env raw
    | some ls => if ls.op.opcode == OPCODES.SSTORE then getStorage env raw else ls.storage
  let gasCost := raw.fee
  let dynamicGasCost := raw.dynamicFee.getD gasCost
  let vmState : StepVMState :=
    { evmStack := evmStack
      memory := memory
      storage := storage
      op := op
      pc := raw.pc
      gasCost := gasCost
      dynamicGasCost := dynamicGasCost
      gas := raw.gasLeft
      depth := raw.depth + 1  -- Match geth's depth starting at 1
      address := raw.address
      codeAddress := raw.codeAddress }
  let codePair := getCodeAndMdHash env vmState trace
  match adjustStackFrame env stack vmState trace codePair.1 codePair.2 with
  | .error e => .error e
  | .ok stack' =>
    match lastExternalFrame stack' with
    | none => .error "lastExternalFrame: empty stack"
    | some curExtFrame =>
      let srcAst :=
        match decodeSourceLoc vmState.pc curExtFrame with
        | .ok p => p
        | .error _ => (none, none)
      let emittedEvent : Option EventDesc :=
        if strStartsWith op.mnemonic "LOG" then
          let off := bigEndianBufToNumber (stkGet evmStack 0)
          let size := bigEndianBufToNumber (stkGet evmStack 1)
          let nTopics := logTopicCount op.mnemonic
          some { payload := memSlice memory off size
                 topics := ((evmStack.drop 2).take nTopics).map bigEndianBufToNumber }
        else
          none
      .ok ({ toStepVMState := vmState
             code := codePair.1
             codeMdHash := codePair.2
             stack := stack'
             src := srcAst.1
             astNode := srcAst.2
             emittedEvent := emittedEvent
             contractInfo := curExtFrame.info },
           stack')

/-! ## The trace driver (`debugTx`) -/

/-- The per-step event loop of `debugTx`: process each raw step in order,
appending the produced `StepState` to the trace and threading the frame
stack. -/
def runTrace (env : Env) : List RawStep → List StepState → List Frame →
    Except String (List StepState × List Frame)
  | [], trace, stack => .ok (trace, stack)
  | raw :: rest, trace, stack =>
    match processRawTraceStep env raw trace stack with
    | .error e => .error e
    | .ok (st, stack') => runTrace env rest (trace ++ [st]) stack'

/-- The transaction the debugger replays: optional recipient, sender and
msg-data (`tx.to`, `tx.getSenderAddress()`, `tx.data`). -/
structure Tx where
  recipient : Option Addr  -- `tx.to` (`to` is reserved in Lean)
  sender : Addr
  data : Buf

/-- The initial frame `debugTx` builds before subscribing to step events: a
creation frame when the recipient string equals the zero-address string
(`tx.to === undefined ? ZERO_ADDRESS_STRING : tx.to.toString()`), otherwise
a call frame whose code is fetched from the state manager by the recipient
address. -/
def debugTxInitFrame (env : Env) (tx : Tx) : Frame :=
  let receiver := tx.recipient.getD ZERO_ADDRESS
  let isCreation := receiver == ZERO_ADDRESS
  if isCreation then
    Frame.ext (ExternalFrame.creation (makeCreationFrame env tx.sender tx.data 0))
  else
    let code := env.getContractCode (tx.recipient.getD ZERO_ADDRESS)
    let codeHash := env.getCodeHash code
    Frame.ext (ExternalFrame.call
      (makeCallFrame env tx.sender (tx.recipient.getD ZERO_ADDRESS) tx.data code codeHash 0))

/-- `debugTx(tx, block, stateManager)`, restricted to its observable trace:
build the initial frame, then fold the VM's step callbacks (given here as
the list of raw steps the VM produces) through `processRawTraceStep`. -/
def debugTx (env : Env) (tx : Tx) (steps : List RawStep) :
    Except String (List StepState) :=
  match runTrace env steps [] [debugTxInitFrame env tx] with
  | .error e => .error e
  | .ok (trace, _) => .ok trace

/-- `Except.isOk` spelled out, used to state success/failure facts. -/
def exceptIsOk : Except String α → Bool
  | .ok _ => true
  | .error _ => false

/-! ## Derived notions used to state the claims -/

/-- The slot count of a formal parameter's type: 2 for a dynamic-size
calldata (pointer-and-length) type, 1 otherwise. -/
def slotSize (t : TypeNode) : Int := if isCalldataType2Slots t then 2 else 1

/-- Total slot count of a list of formals. -/
def sumSlots (fs : List (String × TypeNode)) : Int :=
  (fs.map (fun p => slotSize p.2)).sum

/-- The stack view `decodeFunArgs` assigns to a formal. -/
def mkStackView (typ : TypeNode) (off : Int) : DataView :=
  { type := typ, originalType := none, loc := DataLocation.stack off }

/-- The views `decodeFunArgs` assigns to a list of formals: formal `i` sits
at stack offset `sumSlots (fs.drop i) - 1`, i.e. the slot count of itself
and all later formals, minus one. -/
def funArgViews : List (String × TypeNode) → List (String × DataView)
  | [] => []
  | (name, typ) :: rest =>
    (name, mkStackView typ (sumSlots ((name, typ) :: rest) - 1)) :: funArgViews rest

/-! ### Concrete inputs used by the witness theorems -/

/-- A one-slot type. -/
def wType1 : TypeNode := { id := 0, calldata2Slots := false }

/-- A two-slot (dynamic-size calldata) type. -/
def wType2 : TypeNode := { id := 1, calldata2Slots := true }

/-- A function definition with one one-slot and one two-slot formal. -/
def w9Callee : ASTNode :=
  ASTNode.functionDefinition
    { id := 7, selector := "aabbccdd", formals := some [("a", wType1), ("b", wType2)] }

/-- The formals of `w9Callee`. -/
def w9Formals : List (String × TypeNode) := [("a", wType1), ("b", wType2)]

/-- A 3-deep operand stack. -/
def w9Stack : List Word := [[], [], []]

/-- An environment whose oracles all answer "unknown". -/
def wEnv : Env :=
  { getContractCode := fun _ => []
    getCodeHash := fun _ => none
    getCreationCodeHash := fun _ => none
    getContractFromMDHash := fun _ => none
    getContractFromCreationBytecode := fun _ => none
    decodeMsgData := fun _ _ _ => none
    rlpDecode := fun b => b }

/-- A transaction whose recipient is the (present) zero address. -/
def w10Tx : Tx :=
  { recipient := some ZERO_ADDRESS, sender := List.replicate 20 1, data := [1, 2, 3] }

/-- A dummy machine state (used only to give total extractors for the
witness computations). -/
def dummyVMState : StepVMState :=
  { evmStack := [], memory := [], storage := [], op := { opcode := 0, mnemonic := "", changesMemory := false }
    pc := 0, gasCost := 0, dynamicGasCost := 0, gas := 0, depth := 0, address := [], codeAddress := [] }

/-- A dummy step record (for the same purpose). -/
def dummyStepState : StepState :=
  { toStepVMState := dummyVMState, code := [], codeMdHash := none, stack := []
    src := none, astNode := none, emittedEvent := none, contractInfo := none }

/-- An external creation frame for an unknown contract. -/
def wExtFrame : ExternalFrame :=
  ExternalFrame.creation (makeCreationFrame wEnv (List.replicate 20 1) [] 0)

/-- The same, as a stack frame. -/
def wCreFrame : Frame := Frame.ext wExtFrame

/-- A recorded previous step executing CALL at recorded depth 1, with a
5-deep operand stack. -/
def w6Prev : StepState :=
  { toStepVMState :=
      { evmStack := [[7], [2], [0], [1], [3]], memory := [20, 21, 22, 23], storage := []
        op := { opcode := 0xf1, mnemonic := "CALL", changesMemory := false }
        pc := 5, gasCost := 0, dynamicGasCost := 0, gas := 0, depth := 1
        address := List.replicate 20 1, codeAddress := List.replicate 20 1 }
    code := [], codeMdHash := none, stack := [wCreFrame], src := none, astNode := none
    emittedEvent := none, contractInfo := none }

/-- The current VM state at recorded depth 2 (right after the CALL). -/
def w6State : StepVMState :=
  { evmStack := [], memory := [], storage := []
    op := { opcode := 0x5b, mnemonic := "JUMPDEST", changesMemory := false }
    pc := 0, gasCost := 0, dynamicGasCost := 0, gas := 0, depth := 2
    address := [], codeAddress := [] }

/-- A LOG2 raw step at depth 0 with a 4-deep operand stack. -/
def w8Raw : RawStep :=
  { evmStack := [[0], [4], [9], [8]], memory := [10, 11, 12, 13], storageDump := []
    op := { opcode := 0xa2, mnemonic := "LOG2", changesMemory := false }
    pc := 0, fee := 0, dynamicFee := none, gasLeft := 0, depth := 0
    address := [], codeAddress := [] }

/-- The frame stack for the C8 witness run. -/
def w8Stack : List Frame := [wCreFrame]

/-- The step produced by processing `w8Raw` as a first step. -/
def w8St : StepState :=
  match processRawTraceStep wEnv w8Raw [] w8Stack with
  | .ok p => p.1
  | .error _ => dummyStepState

/-- The frame stack produced by processing `w8Raw` as a first step. -/
def w8Stack2 : List Frame :=
  match processRawTraceStep wEnv w8Raw [] w8Stack with
  | .ok p => p.2
  | .error _ => []

/-- A source entry whose jump kind is "o" (out of a function). -/
def wSrcOut : SrcEntry := { start := 0, length := 0, sourceIndex := 0, jump := "o" }

/-- Debug info resolving every PC to `wSrcOut` and no AST nodes. -/
def wInfo : ContractInfo :=
  { bytecode := { getOffsetSrc := fun _ => some wSrcOut }
    deployedBytecode := { getOffsetSrc := fun _ => some wSrcOut }
    ast := none
    artifact := { srcMap := fun _ => none, abiEncoderVersion := "v2" } }

/-- An external creation frame carrying `wInfo`. -/
def wExtInfoFrame : ExternalFrame :=
  ExternalFrame.creation
    { sender := [], msgData := [], creationCode := [], info := some wInfo
      callee := none, address := ZERO_ADDRESS, startStep := 0, arguments := none }

/-- An internal frame riding on `wExtInfoFrame`. -/
def wIntFrame : Frame :=
  Frame.intern
    { nearestExtFrame := wExtInfoFrame, callee := none, offset := 0, startStep := 0
      arguments := none }

/-- A recorded previous step at recorded depth 1 executing JUMP. -/
def w5Prev : StepState :=
  { toStepVMState :=
      { evmStack := [], memory := [], storage := []
        op := { opcode := 0x56, mnemonic := "JUMP", changesMemory := false }
        pc := 3, gasCost := 0, dynamicGasCost := 0, gas := 0, depth := 1
        address := [], codeAddress := [] }
    code := [], codeMdHash := none, stack := [wIntFrame], src := none, astNode := none
    emittedEvent := none, contractInfo := none }

/-- The current VM state at the same depth, executing JUMP. -/
def w5State : StepVMState :=
  { evmStack := [], memory := [], storage := []
    op := { opcode := 0x56, mnemonic := "JUMP", changesMemory := false }
    pc := 0, gasCost := 0, dynamicGasCost := 0, gas := 0, depth := 1
    address := [], codeAddress := [] }

/-- A source entry whose jump kind is "i" (into a function). -/
def wSrcIn : SrcEntry := { start := 0, length := 0, sourceIndex := 0, jump := "i" }

/-- `wExtInfoFrame` as a stack frame. -/
def wInfoFrame : Frame := Frame.ext wExtInfoFrame

/-- A recorded previous step at recorded depth 1 executing a JUMP whose
source triple has jump kind "i". -/
def w4Prev : StepState :=
  { toStepVMState :=
      { evmStack := [], memory := [], storage := []
        op := { opcode := 0x56, mnemonic := "JUMP", changesMemory := false }
        pc := 3, gasCost := 0, dynamicGasCost := 0, gas := 0, depth := 1
        address := [], codeAddress := [] }
    code := [], codeMdHash := none, stack := [wInfoFrame], src := some wSrcIn
    astNode := none, emittedEvent := none, contractInfo := none }

/-- The current VM state at the same depth, executing JUMPDEST at PC 0. -/
def w4State : StepVMState :=
  { evmStack := [], memory := [], storage := []
    op := { opcode := 0x5b, mnemonic := "JUMPDEST", changesMemory := false }
    pc := 0, gasCost := 0, dynamicGasCost := 0, gas := 0, depth := 1
    address := [], codeAddress := [] }

/-- The VM state of `w6State`, but at recorded depth 3: a +2 jump over
`w6Prev`'s recorded depth 1. -/
def w3State : StepVMState := { w6State with depth := 3 }

/-- A recorded previous step at recorded depth 2 (for the pop witness). -/
def w2Prev : StepState :=
  { w5Prev with toStepVMState := { w5Prev.toStepVMState with depth := 2 } }

/-- The trace produced by a one-step `debugTx` run (for the C1 witness). -/
def w1Trace : List StepState :=
  match debugTx wEnv w10Tx [w8Raw] with
  | .ok t => t
  | .error _ => []

/-- A same-depth second raw step (JUMPDEST) whose raw memory differs from
the first step's. -/
def w7Raw2 : RawStep :=
  { evmStack := [], memory := [99], storageDump := []
    op := { opcode := 0x5b, mnemonic := "JUMPDEST", changesMemory := false }
    pc := 1, fee := 0, dynamicFee := none, gasLeft := 0, depth := 0
    address := [], codeAddress := [] }

/-- The trace of the two-step run for the C7 witness. -/
def w7Trace : List StepState :=
  match debugTx wEnv w10Tx [w8Raw, w7Raw2] with
  | .ok t => t
  | .error _ => []

/-- The first recorded step of `w7Trace`. -/
def w7St1 : StepState := (w7Trace.get? 0).getD dummyStepState

/-- The second recorded step of `w7Trace`. -/
def w7St2 : StepState := (w7Trace.get? 1).getD dummyStepState

/-- The depth discipline of a real VM's step callbacks, relative to the
recorded depth (`raw depth + 1`) of the previously recorded step (`none`
before the first callback): the first callback arrives at VM depth 0, and
the depth never jumps up by more than one between consecutive callbacks. -/
def ChainOk : Option Nat → List RawStep → Bool
  | _, [] => true
  | none, r :: rest => r.depth == 0 && ChainOk (some (r.depth + 1)) rest
  | some d, r :: rest =>
    (decide (r.depth + 1 ≤ d) || r.depth == d) && ChainOk (some (r.depth + 1)) rest

/-- The memory/storage aliasing discipline of the produced trace, stated as
a chain: each produced step's memory is the raw VM buffer when the previous
step's opcode changes memory (or there is no previous step) and the
previous step's memory otherwise; its storage is freshly read from the
state manager when the previous opcode is SSTORE (or there is no previous
step) and the previous step's storage otherwise. -/
def memStorChain (env : Env) : Option StepState → List RawStep → List StepState → Prop
  | _, [], [] => True
  | prevOpt, r :: rs, st :: sts =>
    (st.memory = match prevOpt with
      | none => r.memory
      | some p => if changesMemory p.op then r.memory else p.memory) ∧
    (st.storage = match prevOpt with
      | none => getStorage env r
      | some p => if p.op.opcode == OPCODES.SSTORE then getStorage env r else p.storage) ∧
    memStorChain env (some st) rs sts
  | _, _, _ => False

end SolDbg

namespace SolDbg

/-! ## Claim C9: `decodeFunArgs` slot accounting and stack underflow -/

lemma slotSize_pos (t : TypeNode) : 1 ≤ slotSize t := by
  unfold slotSize; split <;> norm_num

lemma sumSlots_nil : sumSlots [] = 0 := rfl

lemma sumSlots_cons (name : String) (t : TypeNode) (rest : List (String × TypeNode)) :
    sumSlots ((name, t) :: rest) = slotSize t + sumSlots rest := by
  simp [sumSlots]

lemma sumSlots_nonneg (fs : List (String × TypeNode)) : 0 ≤ sumSlots fs := by
  induction fs with
  | nil => simp [sumSlots_nil]
  | cons hd tl ih =>
    obtain ⟨n, t⟩ := hd
    have := slotSize_pos t
    rw [sumSlots_cons]
    omega

lemma funArgViews_length (fs : List (String × TypeNode)) :
    (funArgViews fs).length = fs.length := by
  induction fs with
  | nil => rfl
  | cons hd tl ih =>
    obtain ⟨n, t⟩ := hd
    simp [funArgViews, ih]

lemma funArgViews_get (fs : List (String × TypeNode)) (i : Nat) (name : String)
    (typ : TypeNode) (h : fs.get? i = some (name, typ)) :
    (funArgViews fs).get? i = some (name, mkStackView typ (sumSlots (fs.drop i) - 1)) := by
  induction fs generalizing i with
  | nil => simp at h
  | cons hd tl ih =>
    obtain ⟨n, t⟩ := hd
    match i with
    | 0 =>
      simp only [List.get?] at h
      injection h with h'
      injection h' with h1 h2
      subst h1; subst h2
      simp [funArgViews]
    | j + 1 =>
      simp only [List.get?] at h ⊢
      simpa [funArgViews] using ih j h

/-- Characterization of the `decodeFunArgs` loop: when the accumulated
offset stays within the stack it succeeds, producing `funArgViews fs` with
final offset `sumSlots fs - 1`; when the accumulated offset passes the
stack depth it fails with the stack-underflow diagnostic. -/
lemma decodeFunArgsGo_spec (len : Nat) (fs : List (String × TypeNode)) :
    (sumSlots fs - 1 ≤ (len : Int) →
      decodeFunArgsGo len fs = .ok (funArgViews fs, sumSlots fs - 1)) ∧
    ((len : Int) < sumSlots fs - 1 →
      decodeFunArgsGo len fs = .error "Stack underflow when trying to decode arguments") := by
  induction fs with
  | nil =>
    constructor
    · intro _
      simp [decodeFunArgsGo, sumSlots_nil, funArgViews]
    · intro h
      exfalso
      rw [sumSlots_nil] at h
      omega
  | cons hd tl ih =>
    obtain ⟨name, typ⟩ := hd
    have hslot : 1 ≤ slotSize typ := slotSize_pos typ
    have htl0 : 0 ≤ sumSlots tl := sumSlots_nonneg tl
    have harith : sumSlots tl - 1 + (if isCalldataType2Slots typ then (2 : Int) else 1)
        = sumSlots ((name, typ) :: tl) - 1 := by
      rw [sumSlots_cons]; unfold slotSize; ring
    constructor
    · intro hle
      have htl : sumSlots tl - 1 ≤ (len : Int) := by
        rw [sumSlots_cons] at hle; omega
      have hok := ih.1 htl
      simp only [decodeFunArgsGo, hok, harith, funArgViews, mkStackView]
      rw [if_pos hle]
    · intro hlt
      by_cases hcase : (len : Int) < sumSlots tl - 1
      · have herr := ih.2 hcase
        simp only [decodeFunArgsGo, herr]
      · push_neg at hcase
        have hok := ih.1 hcase
        have hcond : ¬ (sumSlots ((name, typ) :: tl) - 1 ≤ (len : Int)) := by omega
        simp only [decodeFunArgsGo, hok, harith]
        rw [if_neg hcond]

/-- C9: `decodeFunArgs` assigns each formal parameter the stack location
`Stack(offsetFromTop)`, iterating formals from last to first with
`offsetFromTop` starting at -1 and incremented per formal by 2 slots for
dynamic-size calldata types and 1 slot otherwise (so formal `i` ends at
offset `sumSlots (formals.drop i) - 1`); and whenever the operand stack is
shallower than the accumulated offset it fails hard with a stack-underflow
diagnostic instead of returning locations. -/
theorem claim_C9_decodeFunArgs_slots (callee : ASTNode) (stk : List Word)
    (formals : List (String × TypeNode))
    (hf : calleeFormals callee = some formals) :
    (sumSlots formals - 1 ≤ (stk.length : Int) →
      decodeFunArgs callee stk = .ok (some (funArgViews formals)) ∧
      (funArgViews formals).length = formals.length ∧
      ∀ i name typ, formals.get? i = some (name, typ) →
        (funArgViews formals).get? i =
          some (name, mkStackView typ (sumSlots (formals.drop i) - 1))) ∧
    ((stk.length : Int) < sumSlots formals - 1 →
      decodeFunArgs callee stk = .error "Stack underflow when trying to decode arguments") := by
  constructor
  · intro hle
    refine ⟨?_, funArgViews_length formals, fun i name typ h => funArgViews_get formals i name typ h⟩
    have hok := (decodeFunArgsGo_spec stk.length formals).1 hle
    simp only [decodeFunArgs, hf, hok]
  · intro hlt
    have herr := (decodeFunArgsGo_spec stk.length formals).2 hlt
    simp only [decodeFunArgs, hf, herr]

/-- Witness for C9: a callee with a one-slot and a two-slot formal against a
3-deep stack; the hypotheses of `claim_C9_decodeFunArgs_slots` are
discharged at this concrete input. -/
theorem claim_C9_witness :
    decodeFunArgs w9Callee w9Stack = .ok (some (funArgViews w9Formals)) :=
  ((claim_C9_decodeFunArgs_slots w9Callee w9Stack w9Formals rfl).1 (by decide)).1

/-! ## Claim C10: zero-address recipients start a creation frame -/

/-- C10: for every transaction whose recipient is absent or is the 20-zero-
byte zero address, `debugTx` builds the initial frame as a Creation frame
from the transaction data; a Call frame, with code fetched from the state
manager by recipient address, is built only when the recipient is present
and nonzero. -/
theorem claim_C10_initial_frame (env : Env) (tx : Tx) :
    (tx.recipient = none ∨ tx.recipient = some ZERO_ADDRESS →
      debugTxInitFrame env tx =
        Frame.ext (ExternalFrame.creation (makeCreationFrame env tx.sender tx.data 0))) ∧
    (∀ a, tx.recipient = some a → a ≠ ZERO_ADDRESS →
      debugTxInitFrame env tx =
        Frame.ext (ExternalFrame.call
          (makeCallFrame env tx.sender a tx.data (env.getContractCode a)
            (env.getCodeHash (env.getContractCode a)) 0))) := by
  constructor
  · intro h
    rcases h with h | h <;> simp [debugTxInitFrame, h]
  · intro a ha hne
    simp [debugTxInitFrame, ha, hne]

/-- Witness for C10: a transaction whose recipient is present and equals
the zero address starts with a Creation frame. -/
theorem claim_C10_witness :
    debugTxInitFrame wEnv w10Tx =
      Frame.ext (ExternalFrame.creation (makeCreationFrame wEnv w10Tx.sender w10Tx.data 0)) :=
  (claim_C10_initial_frame wEnv w10Tx).1 (Or.inr rfl)

/-! ## Claim C8: LOG-N event extraction -/

/-- C8: on every successfully processed step whose opcode mnemonic begins
with "LOG", with `N` the digit in the mnemonic's fourth character, the
emitted event's payload is the memory slice `[offset, offset+size)` with
`offset` and `size` read from stack positions top and top-1, and its topics
are the `N` stack entries immediately below the size entry, in reversed
(bottom-up) order, each interpreted as a big-endian unsigned integer — so
when the stack is at least `2 + N` deep there are exactly `N` topics. -/
theorem claim_C8_log_event (env : Env) (raw : RawStep) (trace : List StepState)
    (stack : List Frame) (st : StepState) (stack' : List Frame)
    (hok : processRawTraceStep env raw trace stack = .ok (st, stack'))
    (hlog : strStartsWith raw.op.mnemonic "LOG" = true) :
    st.emittedEvent = some
      { payload := memSlice st.memory (bigEndianBufToNumber (stkGet raw.evmStack 0))
          (bigEndianBufToNumber (stkGet raw.evmStack 1))
        topics := ((raw.evmStack.drop 2).take (logTopicCount raw.op.mnemonic)).map
          bigEndianBufToNumber } ∧
    (2 + logTopicCount raw.op.mnemonic ≤ raw.evmStack.length →
      (((raw.evmStack.drop 2).take (logTopicCount raw.op.mnemonic)).map
        bigEndianBufToNumber).length = logTopicCount raw.op.mnemonic) := by
  constructor
  · simp only [processRawTraceStep] at hok
    split at hok
    · exact absurd hok (by simp)
    · split at hok
      · exact absurd hok (by simp)
      · injection hok with hok'
        injection hok' with h1 h2
        subst h1
        simp [hlog]
  · intro hlen
    simp only [List.length_map, List.length_take, List.length_drop]
    omega

/-- Witness for C8: a concrete LOG2 step produces the payload slice and the
two topics. -/
theorem claim_C8_witness :
    w8St.emittedEvent = some
      { payload := memSlice w8St.memory (bigEndianBufToNumber (stkGet w8Raw.evmStack 0))
          (bigEndianBufToNumber (stkGet w8Raw.evmStack 1))
        topics := ((w8Raw.evmStack.drop 2).take (logTopicCount w8Raw.op.mnemonic)).map
          bigEndianBufToNumber } :=
  (claim_C8_log_event wEnv w8Raw [] w8Stack w8St w8Stack2 (by rfl) (by decide)).1

end SolDbg

namespace SolDbg

/-! ## Claim C6: ordinary external calls -/

/-- C6: when the external depth increases by an ordinary (non-creating)
call, the new ExternalCall frame is built with argument offset and size
read from stack positions top-3 and top-4 for CALL/CALLCODE and top-2 and
top-3 for DELEGATECALL/STATICCALL, receiver the word at position top-1
interpreted as an address (the rightmost 20 bytes), and msg-data the
previous step's memory slice `[argOff, argOff + argSize)`. -/
theorem claim_C6_call_frame (env : Env) (stack : List Frame) (state : StepVMState)
    (trace : List StepState) (code : Buf) (codeHash : Option String)
    (prev : StepState) (ext : ExternalFrame)
    (hext : lastExternalFrame stack = some ext)
    (hlast : trace.getLast? = some prev)
    (hinc : state.depth = prev.depth + 1)
    (hop : increasesDepth prev.op = true)
    (hnc : createsContract prev.op = false) :
    adjustStackFrame env stack state trace code codeHash =
      .ok (Frame.ext (ExternalFrame.call (makeCallFrame env ext.address
        (wordToAddress (stkGet prev.evmStack 1))
        (memSlice prev.memory
          (bigEndianBufToNumber (stkGet prev.evmStack
            (if prev.op.opcode == OPCODES.CALL || prev.op.opcode == OPCODES.CALLCODE
             then 3 else 2)))
          (bigEndianBufToNumber (stkGet prev.evmStack
            ((if prev.op.opcode == OPCODES.CALL || prev.op.opcode == OPCODES.CALLCODE
              then 3 else 2) + 1))))
        code codeHash trace.length)) :: stack) ∧
    ((stkGet prev.evmStack 1).length = 32 →
      wordToAddress (stkGet prev.evmStack 1) = (stkGet prev.evmStack 1).drop 12) := by
  constructor
  · have h1 : prev.depth ≠ state.depth := by omega
    have h2 : state.depth > prev.depth := by omega
    simp only [adjustStackFrame, hext, hlast]
    rw [if_pos h1, if_pos h2]
    simp only [hop, hnc, Bool.not_true, Bool.false_eq_true, if_false]
  · intro h32
    simp [wordToAddress, h32]

/-- Witness for C6: a concrete CALL step at recorded depth 1 followed by a
step at depth 2 pushes the expected ExternalCall frame. -/
theorem claim_C6_witness :
    adjustStackFrame wEnv [wCreFrame] w6State [w6Prev] [] none =
      .ok (Frame.ext (ExternalFrame.call (makeCallFrame wEnv wExtFrame.address
        (wordToAddress (stkGet w6Prev.evmStack 1))
        (memSlice w6Prev.memory
          (bigEndianBufToNumber (stkGet w6Prev.evmStack
            (if w6Prev.op.opcode == OPCODES.CALL || w6Prev.op.opcode == OPCODES.CALLCODE
             then 3 else 2)))
          (bigEndianBufToNumber (stkGet w6Prev.evmStack
            ((if w6Prev.op.opcode == OPCODES.CALL || w6Prev.op.opcode == OPCODES.CALLCODE
              then 3 else 2) + 1))))
        [] none 1)) :: [wCreFrame]) :=
  (claim_C6_call_frame wEnv [wCreFrame] w6State [w6Prev] [] none w6Prev wExtFrame
    rfl rfl rfl rfl rfl).1

end SolDbg

namespace SolDbg

/-! ## Claim C5: internal-call return -/

/-- C5: on a same-depth step whose opcode is JUMP and whose current source
triple has jump kind "o" (out), the reconciler pops the top frame when it
is an InternalCall frame and fails hard otherwise. -/
theorem claim_C5_internal_return (env : Env) (f : Frame) (rest : List Frame)
    (state : StepVMState) (trace : List StepState) (code : Buf) (codeHash : Option String)
    (prev : StepState) (ext : ExternalFrame) (src : SrcEntry) (ast : Option ASTNode)
    (hext : lastExternalFrame (f :: rest) = some ext)
    (hlast : trace.getLast? = some prev)
    (heq : prev.depth = state.depth)
    (hsrc : decodeSourceLoc state.pc ext = .ok (some src, ast))
    (hop : state.op.mnemonic = "JUMP")
    (hjump : src.jump = "o") :
    adjustStackFrame env (f :: rest) state trace code codeHash =
      match f with
      | Frame.intern _ => .ok rest
      | _ => .error ("Mismatched internal return from frame " ++ frameKindStr f) := by
  have hne : ¬ (prev.depth ≠ state.depth) := by omega
  have hc1 : (("JUMP" == "JUMPDEST") : Bool) = false := by decide
  have hc2 : ((("JUMP" == "JUMP") : Bool) && (("o" == "o") : Bool)) = true := by decide
  simp only [adjustStackFrame, hext, hlast]
  rw [if_neg hne, hsrc]
  simp only [hop, hjump, hc1, Bool.false_and, Bool.false_eq_true, if_false, hc2, if_true]
  cases f <;> rfl

/-- Witness for C5: popping a concrete internal frame on a JUMP-out step. -/
theorem claim_C5_witness :
    adjustStackFrame wEnv [wIntFrame] w5State [w5Prev] [] none = .ok [] :=
  claim_C5_internal_return wEnv wIntFrame [] w5State [w5Prev] [] none w5Prev
    wExtInfoFrame wSrcOut none rfl rfl rfl rfl rfl rfl

end SolDbg

namespace SolDbg

/-! ## Claim C4: internal-call entry -/

/-- C4: on a same-depth step where the current opcode is JUMPDEST, the
previous opcode is JUMP and the previous step's source triple has jump
kind "i" (into), the reconciler pushes an InternalCall frame whose callee
is the AST node at the current source triple, whose PC offset is the
current PC, whose start step is the current trace index, and whose
arguments come from `decodeFunArgs` applied to the callee and the current
operand stack — computed only when the callee is a FunctionDefinition or a
state-variable VariableDeclaration. -/
theorem claim_C4_internal_entry (env : Env) (stack : List Frame) (state : StepVMState)
    (trace : List StepState) (code : Buf) (codeHash : Option String)
    (prev : StepState) (ext : ExternalFrame) (src : SrcEntry) (ast : Option ASTNode)
    (ps : SrcEntry)
    (hext : lastExternalFrame stack = some ext)
    (hlast : trace.getLast? = some prev)
    (heq : prev.depth = state.depth)
    (hsrc : decodeSourceLoc state.pc ext = .ok (some src, ast))
    (hop : state.op.mnemonic = "JUMPDEST")
    (hpop : prev.op.mnemonic = "JUMP")
    (hpsrc : prev.src = some ps)
    (hpjump : ps.jump = "i") :
    adjustStackFrame env stack state trace code codeHash =
      (calleeArgsOnEntry ast state.evmStack).map
        (fun args => Frame.intern
          { nearestExtFrame := ext, callee := ast, offset := state.pc,
            startStep := trace.length, arguments := args } :: stack) := by
  have hne : ¬ (prev.depth ≠ state.depth) := by omega
  simp only [adjustStackFrame, hext, hlast]
  rw [if_neg hne, hsrc]
  simp only [hop, hpop, hpsrc, hpjump]
  simp only [show (("JUMPDEST" == "JUMPDEST") : Bool) = true from by decide,
    show (("JUMP" == "JUMP") : Bool) = true from by decide,
    show (("i" == "i") : Bool) = true from by decide,
    Bool.and_self, Bool.true_and, Bool.and_true, if_true]
  cases hc : calleeArgsOnEntry ast state.evmStack <;> simp [hc, Except.map]

/-- Witness for C4: a concrete JUMP-into followed by JUMPDEST pushes an
internal frame (with no resolvable callee, hence no arguments). -/
theorem claim_C4_witness :
    adjustStackFrame wEnv [wInfoFrame] w4State [w4Prev] [] none =
      .ok (Frame.intern
        { nearestExtFrame := wExtInfoFrame, callee := none, offset := 0,
          startStep := 1, arguments := none } :: [wInfoFrame]) :=
  claim_C4_internal_entry wEnv [wInfoFrame] w4State [w4Prev] [] none w4Prev
    wExtInfoFrame wSrcOut none wSrcIn rfl rfl rfl rfl rfl rfl rfl rfl

end SolDbg

namespace SolDbg

/-! ## Claim C3: the depth-increase guard -/

/-- Counterexample to C3 as stated: the current step's depth exceeds the
previous step's depth by 2, the previous opcode is CALL (depth-increasing),
and the reconciler succeeds — it does not fail hard on a depth jump of more
than one. -/
theorem claim_C3_counterexample :
    w3State.depth = w6Prev.depth + 2 ∧
    increasesDepth w6Prev.op = true ∧
    exceptIsOk (adjustStackFrame wEnv [wCreFrame] w3State [w6Prev] [] none) = true :=
  ⟨rfl, rfl, rfl⟩

/-- C3 (amended): on a depth increase the reconciler fails hard iff the
previous step's opcode is not classified as depth-increasing; the size of
the increase is not checked, and any increase after a depth-increasing
opcode proceeds by pushing a single external frame. -/
theorem claim_C3_depth_increase_guard (env : Env) (stack : List Frame)
    (state : StepVMState) (trace : List StepState) (code : Buf)
    (codeHash : Option String) (prev : StepState) (ext : ExternalFrame)
    (hext : lastExternalFrame stack = some ext)
    (hlast : trace.getLast? = some prev)
    (hinc : prev.depth < state.depth) :
    (exceptIsOk (adjustStackFrame env stack state trace code codeHash)
      = increasesDepth prev.op) ∧
    (increasesDepth prev.op = true →
      ∃ f, adjustStackFrame env stack state trace code codeHash
        = .ok (Frame.ext f :: stack)) := by
  have h1 : prev.depth ≠ state.depth := by omega
  have h2 : state.depth > prev.depth := hinc
  simp only [adjustStackFrame, hext, hlast]
  rw [if_pos h1, if_pos h2]
  cases hd : increasesDepth prev.op with
  | false =>
    simp only [Bool.not_false, if_true]
    exact ⟨rfl, fun h => absurd h (by simp)⟩
  | true =>
    simp only [Bool.not_true, Bool.false_eq_true, if_false]
    by_cases hc : createsContract prev.op = true
    · simp only [hc, if_true]
      exact ⟨rfl, fun _ => ⟨_, rfl⟩⟩
    · simp only [Bool.not_eq_true] at hc
      simp only [hc, Bool.false_eq_true, if_false]
      exact ⟨rfl, fun _ => ⟨_, rfl⟩⟩

/-- Witness for the amended C3 at a concrete +2 depth jump after CALL. -/
theorem claim_C3_witness :
    exceptIsOk (adjustStackFrame wEnv [wCreFrame] w3State [w6Prev] [] none)
      = increasesDepth w6Prev.op :=
  (claim_C3_depth_increase_guard wEnv [wCreFrame] w3State [w6Prev] [] none w6Prev
    wExtFrame rfl rfl (by decide)).1

end SolDbg

namespace SolDbg

/-! ## Claim C2: depth decreases pop external frames up to a quota -/

lemma countExt_nil : countExt [] = 0 := rfl

lemma countExt_cons_ext (e : ExternalFrame) (rest : List Frame) :
    countExt (Frame.ext e :: rest) = countExt rest + 1 := rfl

lemma countExt_cons_intern (i : InternalCallFrame) (rest : List Frame) :
    countExt (Frame.intern i :: rest) = countExt rest := rfl

/-- The pop loop drops exactly the minimal prefix containing `n` external
frames (internal frames in that prefix are dropped without counting),
provided the stack holds at least `n` external frames. -/
lemma popExternalFrames_spec (stack : List Frame) (n : Nat) (hpos : 1 ≤ n)
    (hle : n ≤ countExt stack) :
    ∃ dropped, stack = dropped ++ popExternalFrames n stack ∧
      countExt dropped = n ∧
      ∀ k, k < dropped.length → countExt (dropped.take k) < n := by
  induction stack generalizing n with
  | nil =>
    rw [countExt_nil] at hle
    omega
  | cons f rest ih =>
    match n, hpos with
    | Nat.succ m, _ =>
      cases f with
      | ext e =>
        rw [countExt_cons_ext] at hle
        have hpop : popExternalFrames (m + 1) (Frame.ext e :: rest)
            = popExternalFrames m rest := by
          simp [popExternalFrames, isExternalKind]
        match m with
        | 0 =>
          refine ⟨[Frame.ext e], ?_, rfl, ?_⟩
          · rw [hpop]
            simp [popExternalFrames]
          · intro k hk
            simp only [List.length_singleton] at hk
            have hk0 : k = 0 := by omega
            subst hk0
            simp [countExt_nil]
        | Nat.succ m' =>
          obtain ⟨dropped, heq, hcnt, hmin⟩ := ih (m' + 1) (by omega) (by omega)
          refine ⟨Frame.ext e :: dropped, ?_, ?_, ?_⟩
          · rw [hpop]
            simpa using heq
          · rw [countExt_cons_ext, hcnt]
          · intro k hk
            match k with
            | 0 => simp [countExt_nil]
            | Nat.succ j =>
              simp only [List.take_succ_cons, countExt_cons_ext]
              have := hmin j (by simpa using hk)
              omega
      | intern i =>
        rw [countExt_cons_intern] at hle
        have hpop : popExternalFrames (m + 1) (Frame.intern i :: rest)
            = popExternalFrames (m + 1) rest := by
          simp [popExternalFrames, isExternalKind]
        obtain ⟨dropped, heq, hcnt, hmin⟩ := ih (m + 1) (by omega) hle
        refine ⟨Frame.intern i :: dropped, ?_, ?_, ?_⟩
        · rw [hpop]
          simpa using heq
        · rw [countExt_cons_intern, hcnt]
        · intro k hk
          match k with
          | 0 => simp [countExt_nil]
          | Nat.succ j =>
            simp only [List.take_succ_cons, countExt_cons_intern]
            exact hmin j (by simpa using hk)

/-- C2: when the external depth decreases between consecutive steps, the
reconciler pops frames from the top of the logical stack until the number
of popped External/Creation frames equals `prev.depth - state.depth`;
InternalCall frames encountered on top are popped as well but do not count
toward that quota (the dropped prefix holds exactly the quota of external
frames, and every proper prefix of it holds fewer). -/
theorem claim_C2_depth_decrease_pop (env : Env) (stack : List Frame)
    (state : StepVMState) (trace : List StepState) (code : Buf)
    (codeHash : Option String) (prev : StepState) (ext : ExternalFrame)
    (res : List Frame)
    (hext : lastExternalFrame stack = some ext)
    (hlast : trace.getLast? = some prev)
    (hdec : state.depth < prev.depth)
    (hquota : prev.depth - state.depth ≤ countExt stack)
    (hok : adjustStackFrame env stack state trace code codeHash = .ok res) :
    ∃ dropped, stack = dropped ++ res ∧
      countExt dropped = prev.depth - state.depth ∧
      ∀ k, k < dropped.length → countExt (dropped.take k) < prev.depth - state.depth := by
  have h1 : prev.depth ≠ state.depth := by omega
  have h2 : ¬ (state.depth > prev.depth) := by omega
  simp only [adjustStackFrame, hext, hlast] at hok
  rw [if_pos h1, if_neg h2] at hok
  injection hok with hok'
  subst hok'
  exact popExternalFrames_spec stack (prev.depth - state.depth) (by omega) hquota

/-- Witness for C2: a depth drop from 2 to 1 over the stack
`[internal, creation]` pops both frames — the internal one without counting
toward the quota of one external frame. -/
theorem claim_C2_witness :
    ∃ dropped, ([wIntFrame, wCreFrame] : List Frame) = dropped ++ [] ∧
      countExt dropped = w2Prev.depth - w5State.depth ∧
      ∀ k, k < dropped.length →
        countExt (dropped.take k) < w2Prev.depth - w5State.depth :=
  claim_C2_depth_decrease_pop wEnv [wIntFrame, wCreFrame] w5State [w2Prev] [] none
    w2Prev wExtInfoFrame [] rfl rfl (by decide) (by decide) (by rfl)

end SolDbg

namespace SolDbg

/-! ## Counting lemmas for the run-level invariants -/

lemma popExternalFrames_countExt :
    ∀ (stack : List Frame) (n : Nat),
      countExt (popExternalFrames n stack) = countExt stack - n := by
  intro stack
  induction stack with
  | nil =>
    intro n
    cases n <;> simp [popExternalFrames, countExt_nil]
  | cons f rest ih =>
    intro n
    cases n with
    | zero => simp [popExternalFrames]
    | succ m =>
      cases f with
      | ext e =>
        have : popExternalFrames (m + 1) (Frame.ext e :: rest)
            = popExternalFrames m rest := by
          simp [popExternalFrames, isExternalKind]
        rw [this, ih m, countExt_cons_ext]
        omega
      | intern i =>
        have : popExternalFrames (m + 1) (Frame.intern i :: rest)
            = popExternalFrames (m + 1) rest := by
          simp [popExternalFrames, isExternalKind]
        rw [this, ih (m + 1), countExt_cons_intern]

lemma getLast?_append_singleton {α : Type} (l : List α) (a : α) :
    (l ++ [a]).getLast? = some a :=
  List.getLast?_concat l

end SolDbg

namespace SolDbg

/-- How one reconciliation changes the external-frame count: a successful
`adjustStackFrame` leaves `countExt` equal to the step's depth, given that
the incoming stack matched the previous step's depth (or held one external
frame before the first step), that depth increases are by exactly one, and
that the recorded depth is at least 1. -/
lemma adjustStackFrame_countExt (env : Env) (stack : List Frame) (state : StepVMState)
    (trace : List StepState) (code : Buf) (codeHash : Option String)
    (stack' : List Frame)
    (hok : adjustStackFrame env stack state trace code codeHash = .ok stack')
    (hprev : ∀ prev, trace.getLast? = some prev →
      countExt stack = prev.depth ∧ (prev.depth < state.depth → state.depth = prev.depth + 1)
        ∧ 1 ≤ state.depth)
    (hnone : trace.getLast? = none → countExt stack = state.depth) :
    countExt stack' = state.depth := by
  cases hext : lastExternalFrame stack with
  | none =>
    simp only [adjustStackFrame, hext] at hok
    exact Except.noConfusion hok
  | some lastExt =>
    cases hlast : trace.getLast? with
    | none =>
      simp only [adjustStackFrame, hext, hlast] at hok
      injection hok with h
      subst h
      exact hnone hlast
    | some prev =>
      simp only [adjustStackFrame, hext, hlast] at hok
      obtain ⟨hc, hi, hpos⟩ := hprev prev hlast
      by_cases hne : prev.depth ≠ state.depth
      · rw [if_pos hne] at hok
        by_cases hgt : state.depth > prev.depth
        · rw [if_pos hgt] at hok
          have hs : countExt stack + 1 = state.depth := by
            have := hi hgt
            omega
          repeat' split at hok
          all_goals
            first
              | exact Except.noConfusion hok
              | (injection hok with h
                 subst h
                 rw [countExt_cons_ext]
                 exact hs)
        · rw [if_neg hgt] at hok
          injection hok with h
          subst h
          rw [popExternalFrames_countExt, hc]
          omega
      · rw [if_neg hne] at hok
        push_neg at hne
        have hgoal : countExt stack = state.depth := hc.trans hne
        repeat' split at hok
        all_goals
          first
            | exact Except.noConfusion hok
            | (injection hok with h
               subst h
               exact hgoal)

end SolDbg

namespace SolDbg

/-- One processed step keeps the external-frame count at the recorded
depth (`raw depth + 1`), records exactly the post-reconciliation stack in
its snapshot, and records that depth. -/
lemma processRawTraceStep_countExt (env : Env) (raw : RawStep) (trace : List StepState)
    (stack : List Frame) (st : StepState) (stack' : List Frame)
    (hok : processRawTraceStep env raw trace stack = .ok (st, stack'))
    (hprev : ∀ prev, trace.getLast? = some prev →
      countExt stack = prev.depth ∧ (prev.depth < raw.depth + 1 → raw.depth + 1 = prev.depth + 1))
    (hnone : trace.getLast? = none → countExt stack = 1 ∧ raw.depth = 0) :
    countExt stack' = raw.depth + 1 ∧ st.stack = stack' ∧ st.depth = raw.depth + 1 := by
  simp only [processRawTraceStep] at hok
  split at hok
  next e heq => exact Except.noConfusion hok
  next stack2 hadj =>
    split at hok
    next hcur => exact Except.noConfusion hok
    next curExt hcur =>
      injection hok with hok'
      injection hok' with h1 h2
      subst h1
      subst h2
      refine ⟨?_, rfl, rfl⟩
      refine adjustStackFrame_countExt env stack _ trace _ _ stack2 hadj ?_ ?_
      · intro prev hp
        obtain ⟨h1, h2⟩ := hprev prev hp
        refine ⟨h1, ?_, ?_⟩
        · intro hlt
          show raw.depth + 1 = prev.depth + 1
          exact h2 (by exact hlt)
        · show 1 ≤ raw.depth + 1
          omega
      · intro hp
        obtain ⟨ha, hb⟩ := hnone hp
        show countExt stack = raw.depth + 1
        omega

end SolDbg

namespace SolDbg

lemma countExt_debugTxInitFrame (env : Env) (tx : Tx) :
    countExt [debugTxInitFrame env tx] = 1 := by
  simp only [debugTxInitFrame]
  split <;> rfl

/-- The run-level invariant: folding the VM's callbacks through
`processRawTraceStep` keeps every recorded snapshot's external-frame count
equal to its recorded depth, and records depth `raw depth + 1` for each raw
step, provided the callbacks obey the VM depth discipline and the incoming
stack matches the last recorded depth. -/
lemma runTrace_countExt (env : Env) :
    ∀ (steps : List RawStep) (trace : List StepState) (stack : List Frame)
      (tr' : List StepState) (stk' : List Frame),
      runTrace env steps trace stack = .ok (tr', stk') →
      ChainOk ((trace.getLast?).map (fun st => st.depth)) steps = true →
      (∀ st ∈ trace, countExt st.stack = st.depth) →
      countExt stack = (match trace.getLast? with | none => 1 | some p => p.depth) →
      (∀ st ∈ tr', countExt st.stack = st.depth) ∧
      tr'.map (fun st => st.depth)
        = trace.map (fun st => st.depth) ++ steps.map (fun r => r.depth + 1) := by
  intro steps
  induction steps with
  | nil =>
    intro trace stack tr' stk' hok hchain hmem hcnt
    simp only [runTrace] at hok
    injection hok with h
    injection h with h1 h2
    subst h1
    exact ⟨hmem, by simp⟩
  | cons raw rest ih =>
    intro trace stack tr' stk' hok hchain hmem hcnt
    simp only [runTrace] at hok
    split at hok
    next e heq => exact Except.noConfusion hok
    next st stack2 hstep =>
      have hfacts : countExt stack2 = raw.depth + 1 ∧ st.stack = stack2
          ∧ st.depth = raw.depth + 1 := by
        refine processRawTraceStep_countExt env raw trace stack st stack2 hstep ?_ ?_
        · intro prev hp
          rw [hp] at hcnt
          rw [hp] at hchain
          simp only [Option.map_some', ChainOk, Bool.and_eq_true] at hchain
          refine ⟨hcnt, ?_⟩
          intro hlt
          rcases Bool.or_eq_true_iff.mp hchain.1 with h | h
          · have := of_decide_eq_true h
            omega
          · have := eq_of_beq h
            omega
        · intro hp
          rw [hp] at hcnt
          rw [hp] at hchain
          simp only [Option.map_none', ChainOk, Bool.and_eq_true] at hchain
          exact ⟨hcnt, eq_of_beq hchain.1⟩
      obtain ⟨hc2, hstk, hdep⟩ := hfacts
      have hchain' : ChainOk (((trace ++ [st]).getLast?).map (fun s => s.depth)) rest
          = true := by
        simp only [getLast?_append_singleton, Option.map_some']
        rw [hdep]
        cases hgl : trace.getLast? with
        | none =>
          rw [hgl] at hchain
          simp only [Option.map_none', ChainOk, Bool.and_eq_true] at hchain
          exact hchain.2
        | some p =>
          rw [hgl] at hchain
          simp only [Option.map_some', ChainOk, Bool.and_eq_true] at hchain
          exact hchain.2
      have hmem' : ∀ s ∈ trace ++ [st], countExt s.stack = s.depth := by
        intro s hs
        rcases List.mem_append.mp hs with h | h
        · exact hmem s h
        · rw [List.mem_singleton] at h
          subst h
          rw [hstk, hc2, hdep]
      have hcnt' : countExt stack2
          = (match (trace ++ [st]).getLast? with | none => 1 | some p => p.depth) := by
        simp only [getLast?_append_singleton]
        rw [hc2, hdep]
      obtain ⟨hm, hmap⟩ := ih (trace ++ [st]) stack2 tr' stk' hok hchain' hmem' hcnt'
      refine ⟨hm, ?_⟩
      rw [hmap, List.map_append]
      simp [hdep]

/-- C1: for every recorded trace step of a `debugTx` run whose raw VM
callbacks obey the depth discipline (first callback at VM depth 0, upward
depth changes by exactly one), the number of external frames (Call plus
Creation kinds) in that step's frame-stack snapshot equals the step's
`depth` field, and that `depth` field is the VM-reported depth plus one. -/
theorem claim_C1_ext_frames_equal_depth (env : Env) (tx : Tx) (steps : List RawStep)
    (trace : List StepState)
    (hchain : ChainOk none steps = true)
    (hok : debugTx env tx steps = .ok trace) :
    (∀ st ∈ trace, countExt st.stack = st.depth) ∧
    trace.map (fun st => st.depth) = steps.map (fun r => r.depth + 1) := by
  simp only [debugTx] at hok
  split at hok
  next e heq => exact Except.noConfusion hok
  next tr stk heq =>
    injection hok with h
    subst h
    have hres := runTrace_countExt env steps [] [debugTxInitFrame env tx] tr stk heq
      (by simpa using hchain) (by intro s hs; simp at hs)
      (by simpa using countExt_debugTxInitFrame env tx)
    simpa using hres

end SolDbg

namespace SolDbg

/-- Witness for C1: a concrete one-step run at VM depth 0 whose single
snapshot holds exactly one external frame at recorded depth 1. -/
theorem claim_C1_witness :
    (∀ st ∈ w1Trace, countExt st.stack = st.depth) ∧
    w1Trace.map (fun st => st.depth) = [w8Raw].map (fun r => r.depth + 1) :=
  claim_C1_ext_frames_equal_depth wEnv w10Tx [w8Raw] w1Trace (by rfl) (by rfl)

end SolDbg

namespace SolDbg

/-- One processed step's memory aliases the previous step's memory unless
the previous opcode changes memory, and its storage aliases the previous
step's storage unless the previous opcode is SSTORE (first steps read both
fresh). -/
lemma processRawTraceStep_memStor (env : Env) (raw : RawStep) (trace : List StepState)
    (stack : List Frame) (st : StepState) (stack' : List Frame)
    (hok : processRawTraceStep env raw trace stack = .ok (st, stack')) :
    st.memory = (match trace.getLast? with
      | none => raw.memory
      | some p => if changesMemory p.op then raw.memory else p.memory) ∧
    st.storage = (match trace.getLast? with
      | none => getStorage env raw
      | some p => if p.op.opcode == OPCODES.SSTORE then getStorage env raw
        else p.storage) := by
  simp only [processRawTraceStep] at hok
  split at hok
  next e heq => exact Except.noConfusion hok
  next stack2 hadj =>
    split at hok
    next hcur => exact Except.noConfusion hok
    next curExt hcur =>
      injection hok with hok'
      injection hok' with h1 h2
      subst h1
      exact ⟨rfl, rfl⟩

/-- The produced trace satisfies the memory/storage aliasing chain. -/
lemma runTrace_memStor (env : Env) :
    ∀ (steps : List RawStep) (trace : List StepState) (stack : List Frame)
      (tr' : List StepState) (stk' : List Frame),
      runTrace env steps trace stack = .ok (tr', stk') →
      ∃ news, tr' = trace ++ news ∧ memStorChain env trace.getLast? steps news := by
  intro steps
  induction steps with
  | nil =>
    intro trace stack tr' stk' hok
    simp only [runTrace] at hok
    injection hok with h
    injection h with h1 h2
    subst h1
    exact ⟨[], by simp, trivial⟩
  | cons raw rest ih =>
    intro trace stack tr' stk' hok
    simp only [runTrace] at hok
    split at hok
    next e heq => exact Except.noConfusion hok
    next st stack2 hstep =>
      obtain ⟨hm, hs⟩ := processRawTraceStep_memStor env raw trace stack st stack2 hstep
      obtain ⟨news, heq, hchain⟩ := ih (trace ++ [st]) stack2 tr' stk' hok
      rw [getLast?_append_singleton] at hchain
      refine ⟨st :: news, ?_, ?_⟩
      · rw [heq]
        simp
      · exact ⟨hm, hs, hchain⟩

/-- Reading consecutive entries out of the aliasing chain. -/
lemma memStorChain_get (env : Env) :
    ∀ (sts : List StepState) (rs : List RawStep) (prevOpt : Option StepState),
      memStorChain env prevOpt rs sts →
      ∀ k st₁ st₂ r₂, sts.get? k = some st₁ → sts.get? (k + 1) = some st₂ →
        rs.get? (k + 1) = some r₂ →
        st₂.memory = (if changesMemory st₁.op then r₂.memory else st₁.memory) ∧
        st₂.storage = (if st₁.op.opcode == OPCODES.SSTORE then getStorage env r₂
          else st₁.storage) := by
  intro sts
  induction sts with
  | nil =>
    intro rs prevOpt hchain k st₁ st₂ r₂ h1 h2 hr
    simp at h1
  | cons st sts' ih =>
    intro rs prevOpt hchain k st₁ st₂ r₂ h1 h2 hr
    cases rs with
    | nil => exact False.elim hchain
    | cons r rs' =>
      obtain ⟨hm, hs, hrest⟩ := hchain
      match k with
      | 0 =>
        simp only [List.get?] at h1 h2 hr
        injection h1 with h1'
        subst h1'
        cases sts' with
        | nil => simp at h2
        | cons st2' sts'' =>
          cases rs' with
          | nil => exact False.elim hrest
          | cons r2' rs'' =>
            obtain ⟨hm2, hs2, _⟩ := hrest
            simp only [List.get?] at h2 hr
            injection h2 with h2'
            injection hr with hr'
            subst h2'
            subst hr'
            exact ⟨hm2, hs2⟩
      | Nat.succ j =>
        simp only [List.get?] at h1 h2 hr
        exact ih rs' (some st) hrest j st₁ st₂ r₂ h1 h2 hr

/-- C7: in a `debugTx` trace, each step's memory is (a copy of) the raw VM
buffer iff the previous step's opcode is classified as memory-changing, and
otherwise is the previous step's buffer itself; likewise its storage is
re-read from the state manager iff the previous step's opcode is SSTORE,
and otherwise is the previous step's storage map itself. -/
theorem claim_C7_memory_storage_aliasing (env : Env) (tx : Tx) (steps : List RawStep)
    (trace : List StepState) (k : Nat) (st₁ st₂ : StepState) (r₂ : RawStep)
    (hok : debugTx env tx steps = .ok trace)
    (h1 : trace.get? k = some st₁)
    (h2 : trace.get? (k + 1) = some st₂)
    (hr : steps.get? (k + 1) = some r₂) :
    st₂.memory = (if changesMemory st₁.op then r₂.memory else st₁.memory) ∧
    st₂.storage = (if st₁.op.opcode == OPCODES.SSTORE then getStorage env r₂
      else st₁.storage) := by
  simp only [debugTx] at hok
  split at hok
  next e heq => exact Except.noConfusion hok
  next tr stk heq =>
    injection hok with h
    subst h
    obtain ⟨news, htr, hchain⟩ := runTrace_memStor env steps [] [debugTxInitFrame env tx]
      tr stk heq
    rw [List.nil_append] at htr
    rw [htr] at h1 h2
    exact memStorChain_get env news steps none hchain k st₁ st₂ r₂ h1 h2 hr

end SolDbg

namespace SolDbg

/-- Witness for C7: in a concrete two-step run whose first opcode (LOG2)
does not change memory and is not SSTORE, the second step aliases the first
step's memory and storage. -/
theorem claim_C7_witness :
    w7St2.memory = (if changesMemory w7St1.op then w7Raw2.memory else w7St1.memory) ∧
    w7St2.storage = (if w7St1.op.opcode == OPCODES.SSTORE then getStorage wEnv w7Raw2
      else w7St1.storage) :=
  claim_C7_memory_storage_aliasing wEnv w10Tx [w8Raw, w7Raw2] w7Trace 0 w7St1 w7St2 w7Raw2
    (by rfl) (by rfl) (by rfl) (by rfl)

end SolDbg
